import Mathlib

/-!
Verification of the media file organizer (src/main.py of KUKARAF/file_cleaner).

The organizer walks a target directory, offers the unprocessed files to an
external decision agent, and applies the agent's side effects through four
tools: a metadata search, a move/rename executor, a completion marker, and a
per-folder hash manifest writer.  This file gives a shallow embedding of the
filesystem-facing parts of that program and proves properties of them.

Modelling choices:
- a path is its list of components (pathlib.Path);
- the filesystem is an association list from paths to regular files, in the
  deterministic order in which Path.rglob enumerates them, plus the list of
  existing directories;
- a file carries its content (a string standing for the byte sequence) and a
  readability flag (an unreadable file makes open/read raise in Python);
- the decision agent (an external collaborator) is an oracle: a function from
  the serialized directory state and the current filesystem to either an
  exception or a new filesystem together with its free-form output string.
-/

namespace FileCleaner

/-- A filesystem path, as its list of components (pathlib.Path). -/
abbrev BPath := List String

/-- A regular file: its byte content (modelled as a string) and whether
reading it succeeds. -/
structure FSFile where
  content : String
  readable : Bool
deriving Repr, DecidableEq

/-- The filesystem: regular files as an association list, in the deterministic
traversal order of Path.rglob, plus the existing directories. -/
structure FS where
  files : List (BPath × FSFile)
  dirs : List BPath
deriving Repr, DecidableEq

/-- main.py:48, self.hash_filename = ".media_hashes.json". -/
def hashFilename : String := ".media_hashes.json"

/-- Path.name: the last component of a path. -/
def pathName (p : BPath) : String := (p.getLast?).getD ""

/-- Path.parent: all components but the last. -/
def pathParent (p : BPath) : BPath := p.dropLast

/-- str(path): the components joined by the path separator. -/
def pathStr (p : BPath) : String := String.intercalate "/" p

/-- Path.is_file(): p names a regular file of fs. -/
def isFileIn (fs : FS) (p : BPath) : Bool := fs.files.any (fun e => e.1 == p)

/-- Path.is_dir(): p names a directory of fs. -/
def isDirIn (fs : FS) (p : BPath) : Bool := fs.dirs.any (fun d => d == p)

/-- Path.exists(): p names a file or a directory of fs. -/
def fsExists (fs : FS) (p : BPath) : Bool := isFileIn fs p || isDirIn fs p

/-- p lies strictly below root (root is a proper ancestor of p). -/
def strictUnder (root p : BPath) : Bool :=
  root.isPrefixOf p && decide (root.length < p.length)

/-- folder.rglob("*") restricted to regular files, in traversal order. -/
def filesUnder (fs : FS) (root : BPath) : List (BPath × FSFile) :=
  fs.files.filter (fun e => strictUnder root e.1)

/-- A snapshot entry, main.py:184-189: path, name, size, parent. -/
structure FileEntry where
  path : BPath
  name : String
  size : Nat
  parent : BPath
deriving Repr, DecidableEq

/-- The snapshot returned by get_directory_state, main.py:191-196. -/
structure DirectoryState where
  directory : BPath
  media_type : String
  files : List FileEntry
  total_files : Nat
deriving Repr, DecidableEq

/-- The organizer's own state, main.py:44-48: the target directory, the media
type, and the in-memory set of processed file paths (ProcessedSet).  The set
is modelled as a duplicate-free list so its size is observable. -/
structure MediaOrganizer where
  target_directory : BPath
  media_type : String
  processed_files : List BPath
deriving Repr, DecidableEq

/-- MediaOrganizer.get_directory_state, main.py:169-196.  Walks the target
tree; skips a file when its name is the hash filename, when its immediate
parent directory contains the hash file, or when its path is in
processed_files; otherwise records path, name, size and parent. -/
def get_directory_state (o : MediaOrganizer) (fs : FS) : DirectoryState :=
  let files := (filesUnder fs o.target_directory).filterMap (fun e =>
    if pathName e.1 = hashFilename then none
    else if fsExists fs (pathParent e.1 ++ [hashFilename]) = true then none
    else if e.1 ∈ o.processed_files then none
    else some ⟨e.1, pathName e.1, e.2.content.length, pathParent e.1⟩)
  ⟨o.target_directory, o.media_type, files, files.length⟩

/-- Any entry of a snapshot: its name is not the hash filename, its immediate
parent holds no hash file, its path is not in processed_files, and it is an
actual file strictly under the target directory. -/
theorem snapshot_entry_props (o : MediaOrganizer) (fs : FS) (e : FileEntry)
    (he : e ∈ (get_directory_state o fs).files) :
    pathName e.path ≠ hashFilename ∧
    fsExists fs (pathParent e.path ++ [hashFilename]) = false ∧
    e.path ∉ o.processed_files ∧
    strictUnder o.target_directory e.path = true ∧
    isFileIn fs e.path = true := by
  simp only [get_directory_state, List.mem_filterMap] at he
  obtain ⟨a, ha, hf⟩ := he
  have haf : a ∈ fs.files ∧ strictUnder o.target_directory a.1 = true := by
    simpa [filesUnder, List.mem_filter] using ha
  by_cases h1 : pathName a.1 = hashFilename
  · simp [h1] at hf
  · by_cases h2 : fsExists fs (pathParent a.1 ++ [hashFilename]) = true
    · simp [h1, h2] at hf
    · by_cases h3 : a.1 ∈ o.processed_files
      · simp [h1, h2, h3] at hf
      · rw [if_neg h1, if_neg h2, if_neg h3] at hf
        rw [Option.some.injEq] at hf
        subst hf
        refine ⟨h1, by simpa using h2, h3, haf.2, ?_⟩
        simp only [isFileIn, List.any_eq_true]
        exact ⟨a, haf.1, by simp⟩

/-- A directory tree in which the subfolder d/F holds a hash manifest marker
while a file lives deeper below it, at d/F/sub/x.mkv, whose own immediate
parent d/F/sub holds no marker. -/
def fsDeepMarker : FS :=
  { files := [(["d", "F", ".media_hashes.json"], ⟨"m", true⟩),
              (["d", "F", "sub", "x.mkv"], ⟨"xyz", true⟩)],
    dirs := [["d"], ["d", "F"], ["d", "F", "sub"]] }

/-- An organizer freshly started on the target directory d. -/
def orgDeepMarker : MediaOrganizer := ⟨["d"], "movie", []⟩

/-- C1 counterexample: the subfolder d/F of the target directory contains the
manifest marker file, yet the snapshot still contains a file located under
d/F (at depth two below it): only files whose immediate parent holds the
marker are skipped, not the whole subtree. -/
theorem C1_counterexample :
    isFileIn fsDeepMarker (["d", "F"] ++ [hashFilename]) = true ∧
    (get_directory_state orgDeepMarker fsDeepMarker).files.any
      (fun e => strictUnder ["d", "F"] e.path) = true := by decide

/-- C1 (amended): the snapshot excludes exactly the files whose immediate
parent directory contains the manifest marker file; files lying deeper below
a marked folder, whose own parent holds no marker, are not excluded. -/
theorem C1_snapshot_excludes_files_with_marked_parent
    (o : MediaOrganizer) (fs : FS) (e : FileEntry)
    (he : e ∈ (get_directory_state o fs).files) :
    fsExists fs (pathParent e.path ++ [hashFilename]) = false :=
  (snapshot_entry_props o fs e he).2.1

/-- C1 witness: the amended theorem applied to a concrete snapshot entry. -/
theorem C1_witness :
    fsExists fsDeepMarker (pathParent ["d", "F", "sub", "x.mkv"] ++ [hashFilename]) = false :=
  C1_snapshot_excludes_files_with_marked_parent orgDeepMarker fsDeepMarker
    ⟨["d", "F", "sub", "x.mkv"], "x.mkv", 3, ["d", "F", "sub"]⟩ (by decide)

/-- Every nonempty ancestor of a path, the path itself included: the chain of
directories that Path.mkdir(parents=True) brings into existence. -/
def pathAncestors : BPath → List BPath
  | [] => []
  | h :: t => [h] :: (pathAncestors t).map (fun q => h :: q)

/-- new_path.parent.mkdir(parents=True, exist_ok=True), main.py:128: create
every missing directory on the chain down to d. -/
def mkdirParents (fs : FS) (d : BPath) : FS :=
  { fs with
    dirs := (pathAncestors d).foldl (fun ds q => if q ∈ ds then ds else ds ++ [q]) fs.dirs }

/-- Relocate the single path p: p becomes new when p is old itself, is
re-rooted when it lies below old, and is untouched otherwise. -/
def renamePath (old new p : BPath) : BPath :=
  if p = old then new
  else if strictUnder old p = true then new ++ p.drop old.length
  else p

/-- shutil.move, main.py:131: relocate the file or folder at old to new. -/
def fsMove (fs : FS) (old new : BPath) : FS :=
  { files := fs.files.map (fun e => (renamePath old new e.1, e.2)),
    dirs := fs.dirs.map (renamePath old new) }

/-- MediaOrganizer.move_rename_file, main.py:117-135.  When the source does
not exist it returns the error message before any directory creation;
otherwise it creates the destination's missing parent directories and moves
the source there, returning a success message. -/
def move_rename_file (fs : FS) (old_path new_path : BPath) : FS × String :=
  if fsExists fs old_path = false then
    (fs, "Error: Source path " ++ pathStr old_path ++ " does not exist")
  else
    (fsMove (mkdirParents fs (pathParent new_path)) old_path new_path,
     "Successfully moved " ++ pathStr old_path ++ " to " ++ pathStr new_path)

/-- C4: moving from a source that does not exist returns the SourceNotFound
error message and leaves the filesystem unchanged: no destination file and
no destination parent directory is created. -/
theorem C4_move_missing_source_no_effect (fs : FS) (old_path new_path : BPath)
    (h : fsExists fs old_path = false) :
    move_rename_file fs old_path new_path =
      (fs, "Error: Source path " ++ pathStr old_path ++ " does not exist") := by
  simp [move_rename_file, h]

/-- C4 witness: the theorem applied on an empty filesystem. -/
theorem C4_witness :
    move_rename_file ⟨[], []⟩ ["missing.mkv"] ["out", "new.mkv"] =
      (⟨[], []⟩, "Error: Source path " ++ pathStr ["missing.mkv"] ++ " does not exist") :=
  C4_move_missing_source_no_effect ⟨[], []⟩ ["missing.mkv"] ["out", "new.mkv"] (by decide)

/-- MediaOrganizer.mark_completed, main.py:137-140: the agent-visible tool
only returns an acknowledgment string; the organizer state is untouched. -/
def mark_completed (o : MediaOrganizer) (file_path : String) : MediaOrganizer × String :=
  (o, "File " ++ file_path ++ " has been marked as completed and properly organized.")

/-- self.processed_files.add(path), main.py:221, with set semantics: the path
is appended only when not yet present. -/
def setAdd (s : List BPath) (p : BPath) : List BPath :=
  if p ∈ s then s else s ++ [p]

/-- Inserting a path already present leaves the set unchanged. -/
theorem setAdd_of_mem {s : List BPath} {q : BPath} (h : q ∈ s) : setAdd s q = s := by
  simp [setAdd, h]

/-- The inserted path is a member afterwards. -/
theorem mem_setAdd (s : List BPath) (q : BPath) : q ∈ setAdd s q := by
  by_cases h : q ∈ s
  · simp [setAdd, h]
  · simp [setAdd, h]

/-- C3 counterexample: invoking mark_completed on a path does not make the
path a member of ProcessedSet — the tool leaves processed_files empty and
merely returns the acknowledgment message. -/
theorem C3_counterexample :
    (mark_completed ⟨["t"], "movie", []⟩ "t/a.mkv").1.processed_files = [] ∧
    (mark_completed ⟨["t"], "movie", []⟩ "t/a.mkv").2 =
      "File t/a.mkv has been marked as completed and properly organized." := by
  exact ⟨rfl, rfl⟩

/-- C3 (amended): mark_completed only returns a message and leaves the
organizer, ProcessedSet included, unchanged; the insertion into ProcessedSet
is performed by the organize loop through set insertion, which makes the
inserted path a member and is idempotent — inserting the same path twice
leaves the size of the set unchanged. -/
theorem C3_mark_via_set_insertion (o : MediaOrganizer) (p : String)
    (s : List BPath) (q : BPath) :
    (mark_completed o p).1 = o ∧
    q ∈ setAdd s q ∧
    (setAdd (setAdd s q) q).length = (setAdd s q).length :=
  ⟨rfl, mem_setAdd s q, by rw [setAdd_of_mem (mem_setAdd s q)]⟩

/-- hashlib.md5 streamed over a file in 4096-byte chunks, main.py:155-158:
successive chunk updates fold the bytes into the digest state, so the digest
is a function of the full byte sequence; the digest value itself is modelled
by a concrete content-determined accumulator in place of the MD5 rounds. -/
def md5hex (content : String) : String :=
  toString (content.toList.foldl (fun a c => a * 256 + c.toNat % 256) 0)

/-- The files hashed for a folder, main.py:153-154: every regular file under
the folder, in traversal order, whose name is not the manifest name. -/
def hashSources (fs : FS) (folder : BPath) : List (BPath × FSFile) :=
  (filesUnder fs folder).filter (fun e => decide (pathName e.1 ≠ hashFilename))

/-- The hashing loop, main.py:153-159: walk the sources in order; the first
unreadable file raises (modelled by an error carrying the offending path);
otherwise each file's folder-relative path is recorded with its digest. -/
def hashEntries (folder : BPath) : List (BPath × FSFile) → Except String (List (BPath × String))
  | [] => .ok []
  | (p, f) :: t =>
    if f.readable = false then .error (pathStr p)
    else
      match hashEntries folder t with
      | .error e => .error e
      | .ok rest => .ok ((p.drop folder.length, md5hex f.content) :: rest)

/-- One serialized manifest line: two-space indent, quoted key and value. -/
def jsonPair (kv : BPath × String) : String :=
  "  \"" ++ pathStr kv.1 ++ "\": \"" ++ kv.2 ++ "\""

/-- json.dump(file_hashes, f, indent=2), main.py:161-162, keys in insertion
order. -/
def jsonDump (kvs : List (BPath × String)) : String :=
  if kvs.isEmpty then "\x7b\x7d"
  else "\x7b\n" ++ String.intercalate ",\n" (kvs.map jsonPair) ++ "\n\x7d"

/-- Overwrite-or-create at the list level: replace the entry at p in place
when present, append it otherwise. -/
def fsWriteList : List (BPath × FSFile) → BPath → String → List (BPath × FSFile)
  | [], p, c => [(p, ⟨c, true⟩)]
  | (q, f) :: t, p, c => if q = p then (p, ⟨c, true⟩) :: t else (q, f) :: fsWriteList t p c

/-- open(path, "w") followed by a full write of c. -/
def fsWrite (fs : FS) (p : BPath) (c : String) : FS :=
  { fs with files := fsWriteList fs.files p c }

/-- The content of the file at p, when it exists. -/
def fsRead (fs : FS) (p : BPath) : Option String :=
  (fs.files.find? (fun e => e.1 == p)).map (fun e => e.2.content)

/-- MediaOrganizer.calculate_folder_hashes, main.py:142-167.  A non-directory
argument fails before anything else; a read failure during hashing aborts
the whole operation; only on success is the manifest file written at the
folder root. -/
def calculate_folder_hashes (fs : FS) (folder_path : BPath) : FS × String :=
  if isDirIn fs folder_path = false then
    (fs, "Error: " ++ pathStr folder_path ++ " is not a directory")
  else
    match hashEntries folder_path (hashSources fs folder_path) with
    | .error e => (fs, "Error calculating hashes: could not read " ++ e)
    | .ok kvs =>
        (fsWrite fs (folder_path ++ [hashFilename]) (jsonDump kvs),
         "Successfully created hash file for " ++ pathStr folder_path)

/-- When a is a prefix of p, appending the remainder of p back to a is p. -/
theorem append_drop_of_isPrefixOf :
    ∀ a p : BPath, a.isPrefixOf p = true → a ++ p.drop a.length = p
  | [], p, _ => by simp
  | x :: a, [], h => by simp [List.isPrefixOf] at h
  | x :: a, y :: p, h => by
      simp only [List.isPrefixOf, Bool.and_eq_true, beq_iff_eq] at h
      obtain ⟨hx, hp⟩ := h
      subst hx
      simpa using append_drop_of_isPrefixOf a p hp

/-- Every produced hash entry comes from a source file: its key is that
file's path with the folder prefix dropped and its value is the digest of
that file's content. -/
theorem hashEntries_mem (folder : BPath) (l : List (BPath × FSFile))
    (kvs : List (BPath × String)) (h : hashEntries folder l = .ok kvs)
    (kv : BPath × String) (hm : kv ∈ kvs) :
    ∃ e ∈ l, kv.1 = e.1.drop folder.length ∧ kv.2 = md5hex e.2.content := by
  induction l generalizing kvs with
  | nil =>
      simp only [hashEntries, Except.ok.injEq] at h
      subst h
      simp at hm
  | cons a t ih =>
      obtain ⟨p, f⟩ := a
      simp only [hashEntries] at h
      by_cases hr : f.readable = false
      · simp [hr] at h
      · rw [if_neg hr] at h
        cases ht : hashEntries folder t with
        | error e => rw [ht] at h; cases h
        | ok rest =>
            rw [ht] at h
            rw [Except.ok.injEq] at h
            subst h
            rcases List.mem_cons.mp hm with hhead | htail
            · exact ⟨(p, f), List.mem_cons_self _ _, by simp [hhead]⟩
            · obtain ⟨e, he, hee⟩ := ih rest ht htail
              exact ⟨e, List.mem_cons_of_mem _ he, hee⟩

/-- C5: every key of the hash mapping computed for a folder is the
folder-relative path of an actual file below the folder, and the manifest
file itself (relative path [hashFilename]) is never a key; no key even ends
in the manifest name. -/
theorem C5_manifest_keys (fs : FS) (folder : BPath)
    (kvs : List (BPath × String))
    (hok : hashEntries folder (hashSources fs folder) = .ok kvs)
    (kv : BPath × String) (hm : kv ∈ kvs) :
    kv.1 ≠ [hashFilename] ∧
    pathName kv.1 ≠ hashFilename ∧
    isFileIn fs (folder ++ kv.1) = true := by
  obtain ⟨e, he, hk, _⟩ := hashEntries_mem folder _ kvs hok kv hm
  have hsrc : e ∈ filesUnder fs folder ∧ pathName e.1 ≠ hashFilename := by
    simpa [hashSources, List.mem_filter] using he
  have hund : e ∈ fs.files ∧ strictUnder folder e.1 = true := by
    simpa [filesUnder, List.mem_filter] using hsrc.1
  have hpre : folder.isPrefixOf e.1 = true ∧ folder.length < e.1.length := by
    simpa [strictUnder] using hund.2
  have happ : folder ++ kv.1 = e.1 := by
    rw [hk]; exact append_drop_of_isPrefixOf folder e.1 hpre.1
  have hne : kv.1 ≠ [] := by
    rw [hk]
    intro hnil
    have hlen := congrArg List.length hnil
    simp at hlen
    omega
  have hname : pathName kv.1 = pathName e.1 := by
    rw [← happ]
    unfold pathName
    rw [List.getLast?_append_of_ne_nil _ hne]
  refine ⟨?_, ?_, ?_⟩
  · intro hkey
    apply hsrc.2
    rw [← hname, hkey]
    rfl
  · rw [hname]; exact hsrc.2
  · rw [happ]
    simp only [isFileIn, List.any_eq_true]
    exact ⟨e, hund.1, by simp⟩

/-- A folder t containing a single readable media file. -/
def fsOneFile : FS :=
  { files := [(["t", "a.mkv"], ⟨"aa", true⟩)], dirs := [["t"]] }

/-- C5 witness: the theorem applied to the hash mapping of a concrete
folder. -/
theorem C5_witness :
    (["a.mkv"] : BPath) ≠ [hashFilename] ∧
    pathName ["a.mkv"] ≠ hashFilename ∧
    isFileIn fsOneFile (["t"] ++ ["a.mkv"]) = true :=
  C5_manifest_keys fsOneFile ["t"] [(["a.mkv"], md5hex "aa")] (by rfl)
    (["a.mkv"], md5hex "aa") (by simp)

/-- C6: calculate_folder_hashes on a non-directory fails with the
InvalidTarget message, and a read failure during hashing fails with the
IOFailure message; in both failure cases the filesystem is returned
unchanged, so no manifest file (not even a partial one) is written. -/
theorem C6_hash_failure_no_effect (fs : FS) (folder : BPath) :
    (isDirIn fs folder = false →
      calculate_folder_hashes fs folder =
        (fs, "Error: " ++ pathStr folder ++ " is not a directory")) ∧
    (∀ e, isDirIn fs folder = true →
      hashEntries folder (hashSources fs folder) = .error e →
      calculate_folder_hashes fs folder =
        (fs, "Error calculating hashes: could not read " ++ e)) := by
  constructor
  · intro h
    simp [calculate_folder_hashes, h]
  · intro e hd he
    simp [calculate_folder_hashes, hd, he]

/-- A folder t whose only file cannot be read. -/
def fsUnreadable : FS :=
  { files := [(["t", "u.bin"], ⟨"z", false⟩)], dirs := [["t"]] }

/-- C6 witness: both failure branches of the theorem at concrete inputs. -/
theorem C6_witness :
    calculate_folder_hashes ⟨[], []⟩ ["q"] =
      (⟨[], []⟩, "Error: " ++ pathStr ["q"] ++ " is not a directory") ∧
    calculate_folder_hashes fsUnreadable ["t"] =
      (fsUnreadable, "Error calculating hashes: could not read " ++ pathStr ["t", "u.bin"]) :=
  ⟨(C6_hash_failure_no_effect ⟨[], []⟩ ["q"]).1 (by rfl),
   (C6_hash_failure_no_effect fsUnreadable ["t"]).2 (pathStr ["t", "u.bin"]) (by rfl) (by rfl)⟩

/-- Overwriting at path p does not change the entries kept by a filter that
rejects every entry located at p. -/
theorem filter_fsWriteList (p : BPath) (c : String) (P : BPath × FSFile → Bool)
    (hP : ∀ f : FSFile, P (p, f) = false) :
    ∀ l : List (BPath × FSFile), (fsWriteList l p c).filter P = l.filter P
  | [] => by simp [fsWriteList, List.filter_cons, hP]
  | (q, f) :: t => by
      by_cases hq : q = p
      · subst hq
        simp [fsWriteList, List.filter_cons, hP]
      · simp only [fsWriteList, if_neg hq, List.filter_cons,
          filter_fsWriteList p c P hP t]

/-- Writing the manifest file does not change the set of files the hashing
loop reads: the manifest name is filtered out either way. -/
theorem hashSources_fsWrite (fs : FS) (folder : BPath) (p : BPath) (c : String)
    (hp : pathName p = hashFilename) :
    hashSources (fsWrite fs p c) folder = hashSources fs folder := by
  unfold hashSources filesUnder fsWrite
  rw [List.filter_filter, List.filter_filter]
  exact filter_fsWriteList p c _ (fun f => by simp [hp]) fs.files

/-- Looking up the overwritten path finds the fresh entry. -/
theorem find?_fsWriteList (p : BPath) (c : String) :
    ∀ l : List (BPath × FSFile),
      (fsWriteList l p c).find? (fun e => e.1 == p) = some (p, ⟨c, true⟩)
  | [] => by simp [fsWriteList]
  | (q, f) :: t => by
      by_cases hq : q = p
      · subst hq
        simp [fsWriteList]
      · simp [fsWriteList, hq, find?_fsWriteList p c t]

/-- Reading back a freshly written file yields the written content. -/
theorem fsRead_fsWrite (fs : FS) (p : BPath) (c : String) :
    fsRead (fsWrite fs p c) p = some c := by
  unfold fsRead fsWrite
  simp [find?_fsWriteList p c fs.files]

/-- C7: when hashing succeeds, the manifest written at the folder root is the
serialization of the computed mapping, and running calculate_folder_hashes a
second time on the unchanged folder writes byte-identical manifest
content. -/
theorem C7_rerun_writes_identical_manifest (fs : FS) (folder : BPath)
    (kvs : List (BPath × String))
    (hd : isDirIn fs folder = true)
    (hok : hashEntries folder (hashSources fs folder) = .ok kvs) :
    fsRead (calculate_folder_hashes fs folder).1 (folder ++ [hashFilename]) =
      some (jsonDump kvs) ∧
    fsRead (calculate_folder_hashes (calculate_folder_hashes fs folder).1 folder).1
        (folder ++ [hashFilename]) =
      fsRead (calculate_folder_hashes fs folder).1 (folder ++ [hashFilename]) := by
  have hp : pathName (folder ++ [hashFilename]) = hashFilename := by
    unfold pathName
    rw [List.getLast?_append_of_ne_nil _ (by simp)]
    rfl
  have h1 : (calculate_folder_hashes fs folder).1 =
      fsWrite fs (folder ++ [hashFilename]) (jsonDump kvs) := by
    simp [calculate_folder_hashes, hd, hok]
  have hd2 : isDirIn (fsWrite fs (folder ++ [hashFilename]) (jsonDump kvs)) folder = true := by
    simpa [fsWrite, isDirIn] using hd
  have hs2 : hashSources (fsWrite fs (folder ++ [hashFilename]) (jsonDump kvs)) folder =
      hashSources fs folder := hashSources_fsWrite fs folder _ _ hp
  have h2 : (calculate_folder_hashes
        (fsWrite fs (folder ++ [hashFilename]) (jsonDump kvs)) folder).1 =
      fsWrite (fsWrite fs (folder ++ [hashFilename]) (jsonDump kvs))
        (folder ++ [hashFilename]) (jsonDump kvs) := by
    simp [calculate_folder_hashes, hd2, hs2, hok]
  rw [h1, h2]
  exact ⟨fsRead_fsWrite _ _ _, by rw [fsRead_fsWrite, fsRead_fsWrite]⟩

/-- C7 witness: the theorem applied to a concrete one-file folder. -/
theorem C7_witness :
    fsRead (calculate_folder_hashes fsOneFile ["t"]).1 (["t"] ++ [hashFilename]) =
      some (jsonDump [(["a.mkv"], md5hex "aa")]) ∧
    fsRead (calculate_folder_hashes (calculate_folder_hashes fsOneFile ["t"]).1 ["t"]).1
        (["t"] ++ [hashFilename]) =
      fsRead (calculate_folder_hashes fsOneFile ["t"]).1 (["t"] ++ [hashFilename]) :=
  C7_rerun_writes_identical_manifest fsOneFile ["t"] [(["a.mkv"], md5hex "aa")]
    (by rfl) (by rfl)

/-- The needle occurs at the very start of the haystack. -/
def startsWithL : List Char → List Char → Bool
  | [], _ => true
  | _ :: _, [] => false
  | a :: as, b :: bs => a == b && startsWithL as bs

/-- Python's substring test, needle in haystack. -/
def containsSub (needle : List Char) : List Char → Bool
  | [] => needle.isEmpty
  | b :: bs => startsWithL needle (b :: bs) || containsSub needle bs

/-- The completion check of main.py:217:
"marked as completed" in result.get("output", "").lower(). -/
def hasMarked (output : String) : Bool :=
  containsSub "marked as completed".toList (output.toList.map Char.toLower)

/-- The external decision agent as an oracle (self.agent.invoke,
main.py:213): from the serialized directory state and the current filesystem
it either raises, carrying an exception message, or returns the filesystem
as mutated by its tool calls together with its free-form output string. -/
def AgentFn : Type := DirectoryState → FS → Except String (FS × String)

/-- The outcome of one iteration of the organize loop body. -/
inductive StepOut where
  | done : StepOut
  | aborted : String → StepOut
  | next : MediaOrganizer → FS → StepOut
deriving Repr, DecidableEq

/-- The bookkeeping of main.py:216-221: when the agent's output mentions
"marked as completed", add the paths of files[:1] — the first snapshot entry
only — to processed_files. -/
def recordCompleted (o : MediaOrganizer) (files : List FileEntry) (out : String) :
    MediaOrganizer :=
  if hasMarked out = true then
    { o with
      processed_files := ((files.take 1).map FileEntry.path).foldl setAdd o.processed_files }
  else o

/-- One iteration of MediaOrganizer.organize, main.py:200-225: take the
snapshot; stop when no files remain; otherwise invoke the agent — an
exception leaves the loop (the aborted outcome, main.py:223-225) — and, when
the agent's output mentions "marked as completed", add the paths of
files[:1] (the first snapshot entry only) to processed_files.  The second
component counts the agent invocations of the iteration. -/
def orgIter (agent : AgentFn) (o : MediaOrganizer) (fs : FS) : StepOut × Nat :=
  if (get_directory_state o fs).files.isEmpty then (.done, 0)
  else
    match agent (get_directory_state o fs) fs with
    | .error e => (.aborted e, 1)
    | .ok (fs2, out) =>
      (.next (recordCompleted o (get_directory_state o fs).files out) fs2, 1)

/-- How a run of the organize loop ends: done models the break of
main.py:205, aborted the break of main.py:225, and outOfFuel a run whose
while True was truncated by the fuel bound. -/
inductive LoopResult where
  | done : LoopResult
  | aborted : String → LoopResult
  | outOfFuel : LoopResult
deriving Repr, DecidableEq

/-- The organize loop, main.py:200-225, with explicit fuel for while True.
It returns the outcome, the final organizer and filesystem, and the total
number of decision-agent invocations. -/
def orgLoop (agent : AgentFn) :
    Nat → MediaOrganizer → FS → Nat → LoopResult × MediaOrganizer × FS × Nat
  | 0, o, fs, calls => (.outOfFuel, o, fs, calls)
  | fuel + 1, o, fs, calls =>
    match orgIter agent o fs with
    | (.done, c) => (.done, o, fs, calls + c)
    | (.aborted e, c) => (.aborted e, o, fs, calls + c)
    | (.next o2 fs2, c) => orgLoop agent fuel o2 fs2 (calls + c)

/-- MediaOrganizer.organize run from a fresh organizer: processed_files
starts empty, main.py:47. -/
def organize (agent : AgentFn) (target : BPath) (media : String) (fs : FS) (fuel : Nat) :
    LoopResult × MediaOrganizer × FS × Nat :=
  orgLoop agent fuel ⟨target, media, []⟩ fs 0

/-- Membership after a set insertion. -/
theorem mem_setAdd_iff (s : List BPath) (q p : BPath) :
    p ∈ setAdd s q ↔ p ∈ s ∨ p = q := by
  by_cases h : q ∈ s
  · rw [setAdd_of_mem h]
    constructor
    · exact Or.inl
    · rintro (hp | rfl)
      · exact hp
      · exact h
  · simp [setAdd, h]

/-- A set insertion grows the size by at most one. -/
theorem length_setAdd_le (s : List BPath) (q : BPath) :
    (setAdd s q).length ≤ s.length + 1 := by
  by_cases h : q ∈ s
  · rw [setAdd_of_mem h]
    omega
  · simp [setAdd, h]

/-- C8: when the target directory yields an empty snapshot at the start, the
run ends done after the first scan, with the organizer and the filesystem
untouched and the decision agent invoked zero times. -/
theorem C8_empty_snapshot_done (agent : AgentFn) (target : BPath) (media : String)
    (fs : FS) (fuel : Nat) (hf : 0 < fuel)
    (he : (get_directory_state ⟨target, media, []⟩ fs).files = []) :
    organize agent target media fs fuel = (.done, ⟨target, media, []⟩, fs, 0) := by
  obtain ⟨n, rfl⟩ : ∃ n, fuel = n + 1 := ⟨fuel - 1, by omega⟩
  unfold organize orgLoop orgIter
  simp [he]

/-- An agent that answers with an acknowledgment mentioning completion and
leaves the filesystem as it is. -/
def agentAck : AgentFn := fun _ fs => .ok (fs, "One file was marked as completed.")

/-- C8 witness: the theorem applied to an empty target directory. -/
theorem C8_witness :
    organize agentAck ["empty"] "movie" ⟨[], []⟩ 1 =
      (.done, ⟨["empty"], "movie", []⟩, ⟨[], []⟩, 0) :=
  C8_empty_snapshot_done agentAck ["empty"] "movie" ⟨[], []⟩ 1 (by omega) (by rfl)

/-- C9: when files remain and the agent invocation raises, the loop ends
aborted in that same iteration — whatever fuel remains — with exactly one
more agent invocation (no retry, no further scan) and the state unchanged. -/
theorem C9_agent_failure_aborts (agent : AgentFn) (o : MediaOrganizer) (fs : FS)
    (fuel calls : Nat) (e : String)
    (hne : (get_directory_state o fs).files ≠ [])
    (ha : agent (get_directory_state o fs) fs = .error e) :
    orgLoop agent (fuel + 1) o fs calls = (.aborted e, o, fs, calls + 1) := by
  obtain ⟨f, rest, hfr⟩ := List.exists_cons_of_ne_nil hne
  unfold orgLoop orgIter
  simp [hfr, ha]

/-- An agent whose invocation raises a transport error. -/
def agentRaises : AgentFn := fun _ _ => .error "transport error"

/-- A target directory t holding two loose media files. -/
def fsTwoFiles : FS :=
  { files := [(["t", "a.mkv"], ⟨"aa", true⟩), (["t", "b.mkv"], ⟨"bb", true⟩)],
    dirs := [["t"]] }

/-- An organizer freshly started on the target directory t. -/
def orgTwoFiles : MediaOrganizer := ⟨["t"], "movie", []⟩

/-- C9 witness: the theorem applied to a failing agent with fuel left. -/
theorem C9_witness :
    orgLoop agentRaises 5 orgTwoFiles fsTwoFiles 0 =
      (.aborted "transport error", orgTwoFiles, fsTwoFiles, 1) :=
  C9_agent_failure_aborts agentRaises orgTwoFiles fsTwoFiles 4 0 "transport error"
    (by decide) (by rfl)

/-- C10: whenever an iteration of the loop continues, ProcessedSet grows by
at most one path, and any path present afterwards was either already present
or is the path of the first file entry of the current snapshot — whatever
the agent did or reported. -/
theorem C10_at_most_first_path_added (agent : AgentFn) (o o2 : MediaOrganizer)
    (fs fs2 : FS) (c : Nat)
    (h : orgIter agent o fs = (.next o2 fs2, c)) :
    o2.processed_files.length ≤ o.processed_files.length + 1 ∧
    ∀ p, p ∈ o2.processed_files → p ∈ o.processed_files ∨
      (get_directory_state o fs).files.head?.map FileEntry.path = some p := by
  unfold orgIter at h
  cases hfr : (get_directory_state o fs).files with
  | nil => rw [hfr] at h; simp at h
  | cons f rest =>
      rw [hfr] at h
      cases ha : agent (get_directory_state o fs) fs with
      | error e => rw [ha] at h; simp at h
      | ok r =>
          obtain ⟨fs', out⟩ := r
          rw [ha] at h
          simp only [List.isEmpty_cons, if_false, Bool.false_eq_true] at h
          unfold recordCompleted at h
          by_cases hm : hasMarked out = true
          · rw [if_pos hm] at h
            rw [Prod.mk.injEq, StepOut.next.injEq] at h
            obtain ⟨⟨ho2, _⟩, _⟩ := h
            subst ho2
            constructor
            · simpa using length_setAdd_le o.processed_files f.path
            · intro p hp
              simp only [List.take_succ_cons, List.take_zero, List.map_cons,
                List.map_nil, List.foldl_cons, List.foldl_nil] at hp
              rcases (mem_setAdd_iff o.processed_files f.path p).mp hp with h1 | h1
              · exact Or.inl h1
              · right
                simp [h1]
          · rw [if_neg hm] at h
            rw [Prod.mk.injEq, StepOut.next.injEq] at h
            obtain ⟨⟨ho2, _⟩, _⟩ := h
            subst ho2
            exact ⟨by omega, fun p hp => Or.inl hp⟩

/-- C10 witness: the theorem applied to a run of one iteration on a
two-file directory with an acknowledging agent. -/
theorem C10_witness :
    (⟨["t"], "movie", [["t", "a.mkv"]]⟩ : MediaOrganizer).processed_files.length ≤
      orgTwoFiles.processed_files.length + 1 ∧
    (["t", "a.mkv"] ∈ orgTwoFiles.processed_files ∨
      (get_directory_state orgTwoFiles fsTwoFiles).files.head?.map FileEntry.path =
        some ["t", "a.mkv"]) :=
  ⟨(C10_at_most_first_path_added agentAck orgTwoFiles
      ⟨["t"], "movie", [["t", "a.mkv"]]⟩ fsTwoFiles fsTwoFiles 1 (by rfl)).1,
   (C10_at_most_first_path_added agentAck orgTwoFiles
      ⟨["t"], "movie", [["t", "a.mkv"]]⟩ fsTwoFiles fsTwoFiles 1 (by rfl)).2
     ["t", "a.mkv"] (by simp)⟩

/-- An agent that actually moves the second snapshot file t/b.mkv into a
titled folder (through the move tool) and reports that it marked that file
as completed. -/
def agentMarksSecond : AgentFn := fun _ fs =>
  .ok ((move_rename_file fs ["t", "b.mkv"] ["t", "B (2001)", "b.mkv"]).1,
    "File t/b.mkv has been marked as completed and properly organized.")

/-- The filesystem after that agent's move. -/
def fsMovedB : FS :=
  (move_rename_file fsTwoFiles ["t", "b.mkv"] ["t", "B (2001)", "b.mkv"]).1

/-- C2 counterexample: the agent's only file-level action concerned t/b.mkv
(moved to t/B (2001)/b.mkv, as the filesystem afterwards shows), yet the
iteration records into ProcessedSet exactly the untouched first snapshot
file t/a.mkv — neither path the action concerned is recorded. -/
theorem C2_counterexample :
    (orgIter agentMarksSecond orgTwoFiles fsTwoFiles).1 =
      .next ⟨["t"], "movie", [["t", "a.mkv"]]⟩ fsMovedB ∧
    isFileIn fsMovedB ["t", "b.mkv"] = false ∧
    isFileIn fsMovedB ["t", "B (2001)", "b.mkv"] = true ∧
    ["t", "b.mkv"] ∉ ([["t", "a.mkv"]] : List BPath) ∧
    ["t", "B (2001)", "b.mkv"] ∉ ([["t", "a.mkv"]] : List BPath) :=
  ⟨rfl, rfl, rfl, by decide, by decide⟩

/-- C2 (amended): in the Applying phase the loop does not record the paths of
the actions the agent performed; instead, exactly when the agent's output
contains the phrase "marked as completed" (case-insensitively), the single
path of the first file entry of the current snapshot is inserted into
ProcessedSet — and every path of ProcessedSet is excluded from the next
snapshot. -/
theorem C2_applying_records_first_of_snapshot (agent : AgentFn)
    (o : MediaOrganizer) (fs fs2 : FS) (out : String)
    (hne : (get_directory_state o fs).files ≠ [])
    (ha : agent (get_directory_state o fs) fs = .ok (fs2, out)) :
    orgIter agent o fs =
      (.next (recordCompleted o (get_directory_state o fs).files out) fs2, 1) ∧
    (∀ p, p ∈ (recordCompleted o (get_directory_state o fs).files out).processed_files ↔
      p ∈ o.processed_files ∨
        (hasMarked out = true ∧
          (get_directory_state o fs).files.head?.map FileEntry.path = some p)) ∧
    ∀ e2 ∈ (get_directory_state
        (recordCompleted o (get_directory_state o fs).files out) fs2).files,
      e2.path ∉ (recordCompleted o (get_directory_state o fs).files out).processed_files := by
  obtain ⟨f, rest, hfr⟩ := List.exists_cons_of_ne_nil hne
  refine ⟨?_, ?_, ?_⟩
  · unfold orgIter
    rw [hfr, ha]
    simp
  · intro p
    unfold recordCompleted
    rw [hfr]
    by_cases hm : hasMarked out = true
    · rw [if_pos hm]
      simp only [List.take_succ_cons, List.take_zero, List.map_cons, List.map_nil,
        List.foldl_cons, List.foldl_nil]
      rw [mem_setAdd_iff]
      constructor
      · rintro (hp | rfl)
        · exact Or.inl hp
        · exact Or.inr ⟨hm, by simp⟩
      · rintro (hp | ⟨_, hsome⟩)
        · exact Or.inl hp
        · right
          have hs : some f.path = some p := by simpa using hsome
          exact (Option.some.inj hs).symm
    · rw [if_neg hm]
      simp [hm]
  · intro e2 he2
    exact (snapshot_entry_props _ _ e2 he2).2.2.1

/-- C2 witness: the amended theorem applied to a two-file directory and an
acknowledging agent. -/
theorem C2_witness :
    orgIter agentAck orgTwoFiles fsTwoFiles =
      (.next (recordCompleted orgTwoFiles
        (get_directory_state orgTwoFiles fsTwoFiles).files
        "One file was marked as completed.") fsTwoFiles, 1) :=
  (C2_applying_records_first_of_snapshot agentAck orgTwoFiles fsTwoFiles fsTwoFiles
    "One file was marked as completed." (by decide) (by rfl)).1

end FileCleaner
